import Mathlib

/-!
Verification development for the atools scenery/navigation ingestion pipeline.
The C++ sources under `src/fs` are shallowly embedded: Qt strings become lists
of characters, little-endian byte streams become explicit positions over a
byte function, machine integers become natural numbers with explicit masks,
and IEEE-754 helper arithmetic is modelled over the rationals. Definitions
come first, followed by all theorems.
-/

namespace Atools

/-! ## Definitions -/

/-! ### Qt string primitives modelled over lists of characters -/

/-- QChar whitespace test (restricted to the ASCII whitespace that occurs in
the modelled inputs). -/
def qIsSpace (c : Char) : Bool := c == ' ' || c == '\t' || c == '\n' || c == '\r'

/-- `QString::trimmed`: strip leading and trailing whitespace. -/
def qTrim (s : List Char) : List Char :=
  ((s.dropWhile qIsSpace).reverse.dropWhile qIsSpace).reverse

/-- `QString::toUpper` (ASCII). -/
def qToUpper (s : List Char) : List Char := s.map Char.toUpper

/-- Worker for `qSimplified`; the fuel argument only serves termination and is
always large enough at the call site. -/
def qSimplifiedGo : ℕ → List Char → List Char
  | 0, s => s
  | _ + 1, [] => []
  | fuel + 1, c :: rest =>
    if qIsSpace c then
      match rest.dropWhile qIsSpace with
      | [] => []
      | r => ' ' :: qSimplifiedGo fuel r
    else c :: qSimplifiedGo fuel rest

/-- `QString::simplified`: strip outer whitespace, collapse inner whitespace
runs to a single space. -/
def qSimplified (s : List Char) : List Char :=
  qSimplifiedGo s.length (s.dropWhile qIsSpace)

/-- Worker for `qRemove`; scans left to right, removing an occurrence of the
pattern and continuing the scan at the same position, exactly like
`QString::remove(const QString&)` (which re-searches from the removal index). -/
def qRemoveGo (pat : List Char) : ℕ → List Char → List Char
  | 0, s => s
  | _ + 1, [] => []
  | fuel + 1, c :: rest =>
    if !pat.isEmpty && pat.isPrefixOf (c :: rest) then
      qRemoveGo pat fuel (List.drop (pat.length - 1) rest)
    else
      c :: qRemoveGo pat fuel rest

/-- `QString::remove(str)`: remove every occurrence of `pat` from `s`. -/
def qRemove (s pat : List Char) : List Char := qRemoveGo pat s.length s

/-- `QString::startsWith("RW")`. -/
def qStartsWithRW (s : List Char) : Bool := ['R', 'W'].isPrefixOf s

/-- `QString::endsWith(c)`. -/
def qEndsWith (s : List Char) (c : Char) : Bool := s.getLast? == some c

/-! ### Decimal digit strings -/

def charIsDigit (c : Char) : Bool := '0' ≤ c && c ≤ '9'

def digitToChar (d : ℕ) : Char := Char.ofNat (48 + d)

def charToDigit (c : Char) : ℕ := c.toNat - 48

/-- Little-endian decimal digits of `n`, computed structurally on a fuel
argument so that the kernel can evaluate concrete instances. -/
def decDigitsRev (fuel n : ℕ) : List ℕ :=
  match fuel with
  | 0 => []
  | f + 1 => if n = 0 then [] else n % 10 :: decDigitsRev f (n / 10)

/-- Decimal digit string (most significant digit first) of `n`, as produced by
`QString::number` for unsigned values. -/
def natToDecChars (n : ℕ) : List Char :=
  if n = 0 then ['0'] else ((decDigitsRev n n).map digitToChar).reverse

/-- Value of a digit string when folded left to right, as done by the numeric
parsers. -/
def decCharsValue (s : List Char) : ℕ := s.foldl (fun a c => 10 * a + charToDigit c) 0

/-- `QString::arg(value, w, 10/'f', 0, QChar('0'))` for a non-negative
integral value: the decimal digits, left-padded with zeros to field width
`w`. -/
def padDecChars (w n : ℕ) : List Char :=
  let ds := natToDecChars n
  List.replicate (w - ds.length) '0' ++ ds

/-! ### Runway names (`fsutil.cpp`, claims C8/C3) -/

/-- `atools::fs::util::runwayFlags` embedded from `fsutil.cpp`: strips an
optional "RW" prefix and a trailing 'T', prepends '0' to short numbers and
uppercases; returns the resulting name together with the three extracted
flags (had "RW" / zero was prepended / had trailing 'T'). -/
def runwayFlags (runway : List Char) : List Char × Bool × Bool × Bool :=
  if runway = [] then ([], false, false, false)
  else
    let pRw := qStartsWithRW runway
    let r1 := if pRw then runway.drop 2 else runway
    let sT := qEndsWith r1 'T'
    let r2 := if sT then r1.dropLast else r1
    let noPfx0 : Bool := r2.length == 1 || (r2.length == 2 && !(charIsDigit (r2.getD 1 ' ')))
    let r3 := if noPfx0 then '0' :: r2 else r2
    (qToUpper r3, pRw, noPfx0, sT)

/-- `atools::fs::util::normalizeRunway` embedded from `fsutil.cpp`. -/
def normalizeRunway (runway : List Char) : List Char := (runwayFlags runway).1

/-- `atools::fs::util::runwayNameSplit` embedded from `fsutil.cpp`: strip an
optional "RW" prefix, then match `^([0-9]{1,2})([LRCWAB]?)(T?)$`, giving
number, designator and true-heading flag. -/
def runwayNameSplit (name : List Char) : Option (ℕ × List Char × Bool) :=
  let rwname := if qStartsWithRW name then name.drop 2 else name
  let ds := rwname.takeWhile charIsDigit
  let rest := rwname.dropWhile charIsDigit
  if 1 ≤ ds.length ∧ ds.length ≤ 2 then
    match rest with
    | [] => some (decCharsValue ds, [], false)
    | [c] =>
      if c ∈ ['L', 'R', 'C', 'W', 'A', 'B'] then some (decCharsValue ds, [c], false)
      else if c = 'T' then some (decCharsValue ds, [], true)
      else none
    | [c, t] =>
      if c ∈ ['L', 'R', 'C', 'W', 'A', 'B'] ∧ t = 'T' then some (decCharsValue ds, [c], true)
      else none
    | _ => none
  else none

/-- `runwayNameJoin` embedded from `fsutil.cpp`: two-digit zero-padded number
followed by the designator. -/
def runwayNameJoin (number : ℕ) (designator : List Char) : List Char :=
  padDecChars 2 number ++ designator

/-- `atools::fs::util::runwayNameVariants` embedded from `fsutil.cpp`: strips
"RW" and 'T' into local variables, puts the *stripped* name first, then
appends the ±1 neighbors (36 wraps to 1, 1 wraps to 36) with the prefix and
suffix re-attached. -/
def runwayNameVariants (name : List Char) : List (List Char) :=
  let pre : List Char := if qStartsWithRW name then ['R', 'W'] else []
  let n1 := if qStartsWithRW name then name.drop 2 else name
  let suf : List Char := if qEndsWith n1 'T' then ['T'] else []
  let n2 := if qEndsWith n1 'T' then n1.dropLast else n1
  let nd :=
    match runwayNameSplit n2 with
    | some (num, des, _) => (num, des)
    | none => (0, ([] : List Char))
  [n2,
   pre ++ runwayNameJoin (if nd.1 < 36 then nd.1 + 1 else 1) nd.2 ++ suf,
   pre ++ runwayNameJoin (if nd.1 > 1 then nd.1 - 1 else 36) nd.2 ++ suf]

/-! ### ARINC waypoint type codec (`fsutil.cpp`, claim C4) -/

/-- `atools::strToUChar` (helper from `atools.h`, which is not among the
sampled sources). Modelled from the spec: the 8-bit LATIN-1 value of a string
character; here the character itself is passed. -/
def strToUChar (c : Char) : ℕ := c.toNat

/-- `QString::toUInt`: parse an unsigned decimal integer, failing on empty or
non-digit input and on values beyond the 32-bit range. -/
def qToUInt (s : List Char) : Option ℕ :=
  if s ≠ [] ∧ s.all charIsDigit = true ∧ decCharsValue s < 2 ^ 32 then some (decCharsValue s)
  else none

/-- `atools::fs::util::waypointFlagsToXplane` embedded from `fsutil.cpp`:
underscores become spaces and quotes are removed; a value of any length other
than three yields the default, otherwise the three LATIN-1 byte values are
packed into a little-endian 32-bit word (fourth byte zero) rendered in
decimal. -/
def waypointFlagsToXplane (flags defaultValue : List Char) : List Char :=
  let f := (flags.map fun c => if c = '_' then ' ' else c).filter (fun c => c != '"')
  match f with
  | [c0, c1, c2] => natToDecChars (strToUChar c0 + 256 * strToUChar c1 + 65536 * strToUChar c2)
  | _ => defaultValue

/-- `atools::fs::util::waypointFlagsFromXplane` embedded from `fsutil.cpp`:
parse the decimal word and append its four little-endian bytes to the default
value, the i-th byte only when its value exceeds i (quirk kept from the
source). -/
def waypointFlagsFromXplane (flags defaultValue : List Char) : List Char :=
  match qToUInt flags with
  | none => defaultValue
  | some n =>
    let b0 := n % 256
    let b1 := n / 256 % 256
    let b2 := n / 65536 % 256
    let b3 := n / 16777216 % 256
    defaultValue
      ++ (if b0 > 0 then [Char.ofNat b0] else [])
      ++ (if b1 > 1 then [Char.ofNat b1] else [])
      ++ (if b2 > 2 then [Char.ofNat b2] else [])
      ++ (if b3 > 3 then [Char.ofNat b3] else [])

/-! ### Little-endian byte stream model (`io/binarystream`) -/

/-- One byte of the stream: the raw byte function reduced modulo 256. -/
def readByteAt (d : ℕ → ℕ) (p : ℕ) : ℕ := d p % 256

/-- `BinaryStream::readUInt`: four bytes, little-endian. -/
def readUIntAt (d : ℕ → ℕ) (p : ℕ) : ℕ :=
  readByteAt d p + 256 * readByteAt d (p + 1) + 65536 * readByteAt d (p + 2) +
    16777216 * readByteAt d (p + 3)

/-! ### Parking record decoding (`bgl/ap/parking.cpp`, claim C6) -/

/-- `atools::fs::bgl::StructureType`: the simulator-generation tag passed to
each record constructor. -/
inductive StructureType
  | STRUCT_FS9 | STRUCT_FSX | STRUCT_P3DV4 | STRUCT_P3DV5 | STRUCT_MSFS | STRUCT_MSFS2024
  deriving DecidableEq

/-- Fields of a parsed parking record. The two float fields and the position
block keep their raw 32-bit words, airline codes their raw bytes. -/
structure Parking where
  name : ℕ
  pushBack : ℕ
  type : ℕ
  number : ℕ
  numAirlineCodes : ℕ
  radius : ℕ
  heading : ℕ
  position : ℕ × ℕ × ℕ
  airlineCodes : List (List ℕ)
  suffix : Option ℕ
  deriving DecidableEq

open StructureType in
/-- `Parking::Parking(BinaryStream*, StructureType)` embedded from
`parking.cpp`, threading the stream position explicitly: the 32-bit flags
word is split into name (6 bits), pushback (2), type (4), number (12) and
airline-code count (8); radius and heading follow as 32-bit float words; the
16-byte tee-offset block is skipped for FSX/P3Dv4/P3Dv5/MSFS; the position
block follows (modelled from the spec: a 12-byte geodetic position, since
`bgl/bglposition` is not among the sampled sources); then the 4-byte airline
codes; P3Dv5 skips 4 further bytes; MSFS skips one byte, reads the suffix
byte and skips 18 further bytes. Returns the record and the final position. -/
def parkingParse (d : ℕ → ℕ) (start : ℕ) (structureType : StructureType) : Parking × ℕ :=
  let flags := readUIntAt d start
  let name := flags % 64
  let pushBack := flags / 64 % 4
  let ptype := flags / 256 % 16
  let number := flags / 4096 % 4096
  let numAirlineCodes := flags / 16777216 % 256
  let radius := readUIntAt d (start + 4)
  let heading := readUIntAt d (start + 8)
  let p2 := start + 12
  let p3 := if structureType = STRUCT_FSX ∨ structureType = STRUCT_P3DV4 ∨
      structureType = STRUCT_P3DV5 ∨ structureType = STRUCT_MSFS then p2 + 16 else p2
  let position := (readUIntAt d p3, readUIntAt d (p3 + 4), readUIntAt d (p3 + 8))
  let p4 := p3 + 12
  let airlineCodes := (List.range numAirlineCodes).map fun i =>
    [readByteAt d (p4 + 4 * i), readByteAt d (p4 + 4 * i + 1), readByteAt d (p4 + 4 * i + 2),
     readByteAt d (p4 + 4 * i + 3)]
  let p5 := p4 + 4 * numAirlineCodes
  let parkingBase : Parking :=
    { name := name, pushBack := pushBack, type := ptype, number := number,
      numAirlineCodes := numAirlineCodes, radius := radius, heading := heading,
      position := position, airlineCodes := airlineCodes, suffix := none }
  match structureType with
  | STRUCT_P3DV5 => (parkingBase, p5 + 4)
  | STRUCT_MSFS => ({ parkingBase with suffix := some (readByteAt d (p5 + 1)) }, p5 + 20)
  | _ => (parkingBase, p5)

/-- A stream whose first four bytes are the little-endian flags word
`0x02015123` of the C6 example. -/
def exParkingBytes : ℕ → ℕ := fun p =>
  if p = 0 then 0x23 else if p = 1 then 0x51 else if p = 2 then 0x01 else if p = 3 then 0x02
  else 0

/-! ### Duplicate airport ident policy (`bglfile.cpp` readRecords, claim C1) -/

/-- Airport idents are Qt strings. -/
abbrev Ident := List Char

/-- One step of the duplicate-ident bookkeeping in `BglFile::readRecords`
(lines 308-328 of `bglfile.cpp`): look up the ident's counter, insert 1 for a
new ident, abort (throw) when the stored counter exceeds 3, otherwise
increment. -/
def airportIdentStep (counts : Ident → ℕ) (ident : Ident) : Option (Ident → ℕ) :=
  if counts ident = 0 then some (fun x => if x = ident then 1 else counts x)
  else if counts ident > 3 then none
  else some (fun x => if x = ident then counts x + 1 else counts x)

/-- `BglFile::readRecords` restricted to the airport records of one file:
the records are processed in file order, each parsed airport is collected,
and the whole file is aborted with an exception as soon as the duplicate
threshold is exceeded. -/
def readAirportRecords (counts : Ident → ℕ) (acc : List Ident) :
    List Ident → Option (List Ident)
  | [] => some acc.reverse
  | ident :: rest =>
    match airportIdentStep counts ident with
    | none => none
    | some counts2 => readAirportRecords counts2 (ident :: acc) rest

/-- Worker for `dedupKeepFirst` (fuel only serves termination). -/
def dedupKeepFirstGo : ℕ → List Ident → List Ident
  | 0, l => l
  | _ + 1, [] => []
  | fuel + 1, x :: xs => x :: dedupKeepFirstGo fuel (xs.filter (fun y => y ≠ x))

/-- Modelled from the spec: the writer layer emits one airport row per
distinct ident and the later duplicates are ignored ("One to three duplicates
are tolerated and the later ones ignored"); the per-file writing step lives
in `fs/db/datawriter.cpp`, which is not among the sampled sources. -/
def dedupKeepFirst (l : List Ident) : List Ident := dedupKeepFirstGo l.length l

/-- Modelled from the spec: processing one file in the scenery-area loop of
`fs/db/datawriter.cpp` (not among the sampled sources): on success the
collected airports are written with duplicates ignored and no error; on the
duplicate-abort exception the file contributes zero airport rows and exactly
one recorded file error. Returns (airport rows, recorded file errors). -/
def processFile (f : List Ident) : List Ident × ℕ :=
  match readAirportRecords (fun _ => 0) [] f with
  | some airports => (dedupKeepFirst airports, 0)
  | none => ([], 1)

/-- The pipeline processes every file of a scenery area in order; a file
aborted by the duplicate policy does not stop the loop. -/
def processFiles (files : List (List Ident)) : List (List Ident × ℕ) :=
  files.map processFile

/-! ### Record dispatch and boundary scan (`bglfile.cpp`, claims C2/C5) -/

/-- The record types distinguished by the boundary scan; the numeric 16-bit
codes live in `fs/bgl/recordtypes.h`, which is not among the sampled sources,
so the relevant subset is modelled as an enumeration with the unrecognized
codes carried by `other`. -/
inductive RecType
  | boundary | boundaryMsfs2024 | geopol | other (code : ℕ)
  deriving DecidableEq

/-- One dispatch step of `BglFile::readRecords` (lines 450-459 of
`bglfile.cpp`): after the record starting at `start` with declared `size` was
parsed — the concrete parser leaving the stream at `parsedPos`, wherever
parsing stopped or failed — the driver repositions to `start + size` via
`seekToEnd` only when the declared size is below the file size; otherwise it
warns and leaves the position untouched. `Record::seekToEnd` itself is
modelled from the spec ("the reader always repositions to start + size"),
since `bgl/record.cpp` is not among the sampled sources. -/
def readRecordsReposition (fileSize start size parsedPos : ℕ) : ℕ :=
  if size < fileSize then start + size else parsedPos

/-- The record loop of `BglFile::readRecords` over one subsection: each
iteration reads the record header at the current position (declared size
`sizeAt pos`), lets the concrete parser run (leaving the stream at
`pos + consumedAt pos`), then repositions per `readRecordsReposition`.
Returns the stream position after the given number of records. -/
def readRecordsLoop (fileSize : ℕ) (sizeAt consumedAt : ℕ → ℕ) : ℕ → ℕ → ℕ
  | pos, 0 => pos
  | pos, n + 1 =>
    readRecordsLoop fileSize sizeAt consumedAt
      (readRecordsReposition fileSize pos (sizeAt pos) (pos + consumedAt pos)) n

/-- The minimum-offset computation of `BglFile::readBoundaryRecords` (lines
131-147 of `bglfile.cpp`): fold over the 16-byte offset-table entries
(offset1, unused word, offset2, treeFlag); entries with a positive tree flag
contribute both offsets; the fold starts at `UINT_MAX`. -/
def minBoundaryOffset (entries : List (ℕ × ℕ × ℕ × ℕ)) : ℕ :=
  entries.foldl
    (fun m e => if e.2.2.2 > 0 then min (min m e.1) e.2.2.1 else m) 4294967295

/-- What `BglFile::handleBoundaries` does with one record. -/
inductive BoundaryAction
  | collected | skipped | warned
  deriving DecidableEq

/-- The per-record classification of `BglFile::handleBoundaries` (lines
162-175 of `bglfile.cpp`): boundary records of either variant are collected;
any type other than geopol draws a warning; geopol records are skipped with
no warning. -/
def boundaryStep (t : RecType) : BoundaryAction :=
  if t = RecType.boundary ∨ t = RecType.boundaryMsfs2024 then BoundaryAction.collected
  else if t ≠ RecType.geopol then BoundaryAction.warned
  else BoundaryAction.skipped

/-- `BglFile::handleBoundaries` embedded from `bglfile.cpp` (lines 156-181):
reads records until the end of the file, collecting boundary records and
warning on unexpected types; every record advances the position by its
declared size (`rec.seekToEnd()` is unconditional here). The file is a
function from offsets to record headers; the fuel argument only serves
termination and any value at least `fileSize - pos` is enough when all sizes
are positive. Returns collected offsets, warned offsets, and the final
position. -/
def handleBoundaries (file : ℕ → RecType × ℕ) (fileSize : ℕ) :
    ℕ → ℕ → List ℕ × List ℕ × ℕ
  | 0, pos => ([], [], pos)
  | fuel + 1, pos =>
    if pos < fileSize then
      let r := handleBoundaries file fileSize fuel (pos + (file pos).2)
      match boundaryStep (file pos).1 with
      | BoundaryAction.collected => (pos :: r.1, r.2.1, r.2.2)
      | BoundaryAction.skipped => r
      | BoundaryAction.warned => (r.1, pos :: r.2.1, r.2.2)
    else ([], [], pos)

/-- `BglFile::readBoundaryRecords`: seek to the minimum declared offset of
the boundary section's offset table and scan to the end of the file. -/
def readBoundaryRecords (file : ℕ → RecType × ℕ) (fileSize : ℕ)
    (entries : List (ℕ × ℕ × ℕ × ℕ)) : List ℕ × List ℕ × ℕ :=
  handleBoundaries file fileSize fileSize (minBoundaryOffset entries)

/-- Concrete file for the C5 counterexample: a geopol record at offset 0, an
unknown record type at offset 10, a boundary record at offset 20; file size
30. -/
def exBoundaryFile : ℕ → RecType × ℕ := fun p =>
  if p = 0 then (RecType.geopol, 10)
  else if p = 10 then (RecType.other 99, 10)
  else (RecType.boundary, 10)

/-! ### Pipeline driver post-load passes (`navdatabase.cpp`, claims C7/C3) -/

/-- `atools::fs::FsPaths::SimulatorType` (the subset used by the driver and
the ILS writer). -/
inductive SimulatorType
  | FSX | P3D_V3 | P3D_V4 | P3D_V5 | MSFS | MSFS_2024 | XPLANE11
  deriving DecidableEq

/-- The post-load passes of `NavDatabase::createInternal` (lines 423-498 of
`navdatabase.cpp`), in source order. -/
inductive PostLoadPass
  | createPostLoadIndexes
  | deleteDuplicates
  | resolveAirways
  | mergeVorTacanToVortac
  | updateWaypointNavIds
  | updateApproachNavIds
  | updateIlsRunwayEndIds
  | updateIlsCounts
  | populateNavSearch
  | populateRouteNode
  | createRouteEdgesRadio
  | populateRouteEdge
  | createSearchIndexes
  | updateMetadataAirac
  deriving DecidableEq

/-- The driver options that gate post-load passes. -/
structure NavDatabaseOptions where
  simulatorType : SimulatorType
  deduplicate : Bool
  airwayResolve : Bool
  createRouteTables : Bool

open PostLoadPass in
/-- The post-load phase of `NavDatabase::createInternal` (lines 423-498),
with the executed pass list made explicit. The X-Plane data compiler is only
constructed in the X-Plane branch of the loading phase (line 298), yet the
final metadata update calls `xpDataCompiler->getAiracCycle()` unconditionally
(line 497); for any other simulator this dereferences a null
`QScopedPointer`, modelled as `none` (the run never reaches the metadata
update). -/
def postLoadPasses (opts : NavDatabaseOptions) : Option (List PostLoadPass) :=
  let xpDataCompiler : Option Unit :=
    if opts.simulatorType = SimulatorType.XPLANE11 then some () else none
  let passes :=
    [createPostLoadIndexes] ++
    (if opts.deduplicate then [deleteDuplicates] else []) ++
    (if opts.airwayResolve then [resolveAirways] else []) ++
    (if opts.simulatorType ≠ SimulatorType.XPLANE11 then [mergeVorTacanToVortac] else []) ++
    [updateWaypointNavIds, updateApproachNavIds] ++
    (if opts.simulatorType ≠ SimulatorType.XPLANE11 then [updateIlsRunwayEndIds] else []) ++
    [updateIlsCounts, populateNavSearch, populateRouteNode] ++
    (if opts.createRouteTables then [createRouteEdgesRadio] else []) ++
    [populateRouteEdge, createSearchIndexes]
  match xpDataCompiler with
  | some _ => some (passes ++ [updateMetadataAirac])
  | none => none

/-! ### ILS writer (`fs/db/nav/ilswriter.cpp`, claim C3) -/

/-- The localizer subrecord of an ILS as used by the writer. -/
structure Localizer where
  runwayName : List Char

/-- The ILS record fields used by the writer's runway binding. -/
structure Ils where
  ident : List Char
  name : List Char
  airportIdent : List Char
  loc : Option Localizer

/-- `atools::fs::util::runwayNameValid` is declared in `fs/util/fsutil.h`,
which is not among the sampled sources. Modelled from the spec and the
sampled `runwayNameSplit` regex: a runway name is valid when it matches
`^(RW)?[0-9]{1,2}[LRCWAB]?T?$`. -/
def runwayNameValid (name : List Char) : Bool := (runwayNameSplit name).isSome

/-- The MSFS runway-name extraction chain of `IlsWriter::writeObject` (lines
150-151 of `ilswriter.cpp`): uppercase, simplify, then remove the marker
substrings in source order ("IGS", "ILSZ", "ILSX", "ILSY", "ILS", "CAT",
"I", "II", "III", "LOC", "RUNWAY", "RWY", "RW", spaces). -/
def extractRunwayFromIlsName (name : List Char) : List Char :=
  let base := qSimplified (qToUpper name)
  let patterns := [['I', 'G', 'S'], ['I', 'L', 'S', 'Z'], ['I', 'L', 'S', 'X'],
    ['I', 'L', 'S', 'Y'], ['I', 'L', 'S'], ['C', 'A', 'T'], ['I'], ['I', 'I'],
    ['I', 'I', 'I'], ['L', 'O', 'C'], ['R', 'U', 'N', 'W', 'A', 'Y'], ['R', 'W', 'Y'],
    ['R', 'W'], [' ']]
  patterns.foldl qRemove base

/-- Outcome of `IlsWriter::writeObject`: which runway name was bound to
`:loc_runway_name` (if any) and whether the insert statement was executed. -/
structure IlsWriteResult where
  boundRunway : Option (List Char)
  written : Bool
  deriving DecidableEq

/-- `IlsWriter::writeObject` embedded from `ilswriter.cpp`, restricted to the
runway binding and the write decision: an empty ident returns without
binding; with a localizer, an absent runway name ("", "0", "00") is recovered
from the trimmed facility name for MSFS/MSFS 2024 and cleared when still
invalid; `isComplete` is true only when there is no localizer, and the
statement executes only in incomplete mode or for complete records. -/
def ilsWriteObject (sim : SimulatorType) (incompleteMode : Bool) (ils : Ils) :
    IlsWriteResult :=
  if ils.ident = [] then { boundRunway := none, written := false }
  else
    match ils.loc with
    | none => { boundRunway := none, written := true }
    | some loc =>
      let name := qTrim ils.name
      let ln0 := qTrim loc.runwayName
      let ln1 :=
        if (sim = SimulatorType.MSFS ∨ sim = SimulatorType.MSFS_2024) ∧
            (ln0 = [] ∨ ln0 = ['0'] ∨ ln0 = ['0', '0']) then
          let ex := extractRunwayFromIlsName name
          if runwayNameValid ex then ex else []
        else ln0
      { boundRunway := if ln1 ≠ [] then some ln1 else none,
        written := incompleteMode }

/-! ### ICAO speed/altitude codec (`fsutil.cpp`, claim C9) -/

/-- Rounding used by the `%1`-style fixed formatting with zero precision,
modelled as round-half-up over the rationals; the claimed tolerances hold for
any round-to-nearest tie-breaking. -/
def rndNat (q : ℚ) : ℕ := (⌊q + 1 / 2⌋).toNat

/-- Modelled from the spec: `atools::geo::feetToMeter` lives in
`geo/calculations.h`, which is not among the sampled sources; exact rational
factor 1 ft = 0.3048 m. -/
def feetToMeter (f : ℚ) : ℚ := f * (3048 / 10000)

/-- Modelled from the spec: `atools::geo::meterToFeet` (not among the sampled
sources), the exact inverse factor. -/
def meterToFeet (m : ℚ) : ℚ := m * (10000 / 3048)

/-- Modelled from the spec: `atools::geo::meterToNm` (not among the sampled
sources); 1 NM = 1852 m. -/
def meterToNm (m : ℚ) : ℚ := m / 1852

/-- Modelled from the spec: `atools::geo::knotsToKmh` (not among the sampled
sources); 1 kt = 1.852 km/h. -/
def knotsToKmh (k : ℚ) : ℚ := k * (1852 / 1000)

/-- Modelled from the spec: `atools::geo::machToTasFromAlt` is not among the
sampled sources and left trivial — the encoder never emits Mach speeds, so
the codec round trip never reaches this branch. -/
def machToTasFromAlt (_altFeet _mach : ℚ) : ℚ := 0

/-- `atools::fs::util::createSpeedAndAltitude` embedded from `fsutil.cpp`
(lines 653-684) over exact rationals: four-digit zero-padded speed in knots
("N") or km/h ("K"); altitude as hundreds of feet ("A" below 18000 ft, else
flight level "F") or, metric, tens of meters ("M" when the altitude *in
feet* is below `feetToMeter 18000` — the comparison quirk kept from the
source — else metric flight level "S" with three-digit padding). -/
def createSpeedAndAltitude (speedKts altFeet : ℚ) (metricSpeed metricAlt : Bool) :
    List Char :=
  let spd :=
    if metricSpeed then 'K' :: padDecChars 4 (rndNat (knotsToKmh speedKts))
    else 'N' :: padDecChars 4 (rndNat speedKts)
  let alt :=
    if metricAlt then
      if altFeet < feetToMeter 18000 then
        'M' :: padDecChars 4 (rndNat (feetToMeter altFeet / 10))
      else
        'S' :: padDecChars 3 (rndNat (feetToMeter altFeet / 10))
    else
      if altFeet < 18000 then 'A' :: padDecChars 3 (rndNat (altFeet / 100))
      else 'F' :: padDecChars 3 (rndNat (altFeet / 100))
  spd ++ alt

/-- The altitude conversion of `extractSpeedAndAltitude` (lines 620-630 of
`fsutil.cpp`): "F" and "A" values of 1000 or more are taken as feet directly,
smaller ones as hundreds of feet; "S" and "M" values are tens of meters. -/
def parsedAltFeet (a : Char) (alt : ℚ) : ℚ :=
  if a = 'F' then (if alt ≥ 1000 then alt else alt * 100)
  else if a = 'S' then meterToFeet (alt * 10)
  else if a = 'A' then (if alt ≥ 1000 then alt else alt * 100)
  else meterToFeet (alt * 10)

/-- The speed conversion of `extractSpeedAndAltitude` (lines 632-640 of
`fsutil.cpp`): "K" is km/h, "N" is knots, "M" is Mach. -/
def parsedSpeedKnots (u : Char) (speed altFeet : ℚ) : ℚ :=
  if u = 'K' then meterToNm (speed * 1000)
  else if u = 'N' then speed
  else machToTasFromAlt altFeet (speed / 100)

/-- `atools::fs::util::extractSpeedAndAltitude` embedded from `fsutil.cpp`
(lines 592-651): the regex `^([NMK])(\d{2,4})(([FSAM])(\d{2,4}))?$` over the
character list, followed by the per-unit conversions; parsing fails when the
regex does not match and also when the altitude group is absent (the empty
fifth capture fails its float conversion in the source). Returns speed in
knots and altitude in feet. -/
def extractSpeedAndAltitude (item : List Char) : Option (ℚ × ℚ) :=
  match item with
  | [] => none
  | u :: rest =>
    if u = 'N' ∨ u = 'M' ∨ u = 'K' then
      let ds := rest.takeWhile charIsDigit
      let rest2 := rest.dropWhile charIsDigit
      if 2 ≤ ds.length ∧ ds.length ≤ 4 then
        match rest2 with
        | [] => none
        | a :: ds2 =>
          if (a = 'F' ∨ a = 'S' ∨ a = 'A' ∨ a = 'M') ∧
              ds2.all charIsDigit = true ∧ 2 ≤ ds2.length ∧ ds2.length ≤ 4 then
            let altFeet : ℚ := parsedAltFeet a (decCharsValue ds2 : ℚ)
            some (parsedSpeedKnots u (decCharsValue ds : ℚ) altFeet, altFeet)
          else none
      else none
    else none

/-! ### Airport rating (`fsutil.cpp`, claim C10) -/

/-- The facility-based base rating shared by both rating functions. -/
def airportFacilityRating (addon3d : Bool) (numTaxiPaths numParkings numAprons : ℕ) : ℕ :=
  (if numTaxiPaths > 0 then 1 else 0) + (if numParkings > 0 then 1 else 0) +
    (if numAprons > 0 then 1 else 0) + (if addon3d then 1 else 0)

/-- `atools::fs::util::calculateAirportRating` embedded from `fsutil.cpp`:
base rating from taxi paths, parkings, aprons, add-on flag; MSFS generated
airports are zeroed; tower bonus only on a positive rating. -/
def calculateAirportRating (isAddon hasTower msfs : Bool)
    (numTaxiPaths numParkings numAprons : ℕ) : ℕ :=
  let rating :=
    if msfs = true ∧ isAddon = false ∧ numTaxiPaths = 0 ∧ numParkings = 0 then 0
    else airportFacilityRating isAddon numTaxiPaths numParkings numAprons
  if rating > 0 ∧ hasTower = true then rating + 1 else rating

/-- `atools::fs::util::calculateAirportRatingXp` embedded from `fsutil.cpp`:
like the FSX/P3D variant but with `isAddon | is3D` and no MSFS zeroing. -/
def calculateAirportRatingXp (isAddon is3D hasTower : Bool)
    (numTaxiPaths numParkings numAprons : ℕ) : ℕ :=
  let rating := airportFacilityRating (isAddon || is3D) numTaxiPaths numParkings numAprons
  if rating > 0 ∧ hasTower = true then rating + 1 else rating

/-! ## Theorems -/

/-! ### Digit string lemmas -/

theorem decDigitsRev_eq_digits : ∀ fuel n, n ≤ fuel → decDigitsRev fuel n = Nat.digits 10 n := by
  intro fuel
  induction fuel with
  | zero =>
    intro n hn
    interval_cases n
    simp [decDigitsRev]
  | succ f ih =>
    intro n hn
    by_cases h : n = 0
    · subst h; simp [decDigitsRev]
    · have hdiv : n / 10 ≤ f := by omega
      rw [show decDigitsRev (f + 1) n = n % 10 :: decDigitsRev f (n / 10) by
        simp [decDigitsRev, h]]
      rw [ih (n / 10) hdiv]
      exact (Nat.digits_def' (by norm_num) (Nat.pos_of_ne_zero h)).symm

/-- Bridge between the executable definition and `Nat.digits`. -/
theorem natToDecChars_eq_digits (n : ℕ) :
    natToDecChars n = if n = 0 then ['0'] else ((Nat.digits 10 n).map digitToChar).reverse := by
  unfold natToDecChars
  rw [decDigitsRev_eq_digits n n le_rfl]

theorem charToDigit_digitToChar {d : ℕ} (h : d < 10) : charToDigit (digitToChar d) = d := by
  interval_cases d <;> decide

theorem charIsDigit_digitToChar {d : ℕ} (h : d < 10) : charIsDigit (digitToChar d) = true := by
  interval_cases d <;> decide

theorem foldl_decChars_digits (l : List ℕ) (hl : ∀ d ∈ l, d < 10) (a : ℕ) :
    List.foldl (fun a c => 10 * a + charToDigit c) a ((l.map digitToChar).reverse) =
      a * 10 ^ l.length + Nat.ofDigits 10 l := by
  induction l generalizing a with
  | nil => simp [Nat.ofDigits]
  | cons d t ih =>
    have hd : d < 10 := hl d (by simp)
    have ht : ∀ x ∈ t, x < 10 := fun x hx => hl x (by simp [hx])
    simp only [List.map_cons, List.reverse_cons, List.foldl_append, List.foldl_cons,
      List.foldl_nil, ih ht, Nat.ofDigits_cons, List.length_cons,
      charToDigit_digitToChar hd]
    ring

theorem decCharsValue_natToDecChars (n : ℕ) : decCharsValue (natToDecChars n) = n := by
  rw [natToDecChars_eq_digits]
  by_cases h : n = 0
  · subst h; decide
  · have hd : ∀ d ∈ Nat.digits 10 n, d < 10 := fun d hdm => Nat.digits_lt_base (by norm_num) hdm
    simp [decCharsValue, h, foldl_decChars_digits _ hd, Nat.ofDigits_digits]

theorem foldl_replicate_zero (k : ℕ) :
    List.foldl (fun a c => 10 * a + charToDigit c) 0 (List.replicate k '0') = 0 := by
  induction k with
  | zero => rfl
  | succ m ih =>
    have h0 : (10 : ℕ) * 0 + charToDigit '0' = 0 := by decide
    simpa [List.replicate_succ, h0] using ih

theorem decCharsValue_padDecChars (w n : ℕ) : decCharsValue (padDecChars w n) = n := by
  have h1 : padDecChars w n =
      List.replicate (w - (natToDecChars n).length) '0' ++ natToDecChars n := rfl
  have h2 : decCharsValue (padDecChars w n) =
      List.foldl (fun a c => 10 * a + charToDigit c)
        (List.foldl (fun a c => 10 * a + charToDigit c) 0
          (List.replicate (w - (natToDecChars n).length) '0'))
        (natToDecChars n) := by rw [h1]; exact List.foldl_append ..
  rw [h2, foldl_replicate_zero]
  exact decCharsValue_natToDecChars n

theorem natToDecChars_all_digits (n : ℕ) : ∀ c ∈ natToDecChars n, charIsDigit c = true := by
  intro c hc
  rw [natToDecChars_eq_digits] at hc
  by_cases h : n = 0
  · subst h
    rw [if_pos rfl, List.mem_singleton] at hc
    subst hc; decide
  · simp only [if_neg h, List.mem_reverse, List.mem_map] at hc
    obtain ⟨d, hdm, rfl⟩ := hc
    exact charIsDigit_digitToChar (Nat.digits_lt_base (by norm_num) hdm)

theorem padDecChars_all_digits (w n : ℕ) : ∀ c ∈ padDecChars w n, charIsDigit c = true := by
  intro c hc
  simp only [padDecChars, List.mem_append, List.mem_replicate] at hc
  rcases hc with ⟨-, rfl⟩ | hc
  · decide
  · exact natToDecChars_all_digits n c hc

theorem natToDecChars_length_le {n k : ℕ} (hk : 0 < k) (h : n < 10 ^ k) :
    (natToDecChars n).length ≤ k := by
  rw [natToDecChars_eq_digits]
  by_cases h0 : n = 0
  · subst h0; simpa using hk
  · simp only [if_neg h0, List.length_reverse, List.length_map]
    by_contra hcon
    push_neg at hcon
    have h1 : 10 ^ (Nat.digits 10 n).length ≤ 10 * n :=
      Nat.base_pow_length_digits_le 10 n (by norm_num) h0
    have h2 : 10 ^ (k + 1) ≤ 10 ^ (Nat.digits 10 n).length :=
      Nat.pow_le_pow_right (by norm_num) hcon
    have h3 : 10 * n < 10 * 10 ^ k := by omega
    rw [pow_succ] at h2
    omega

theorem natToDecChars_ne_nil (n : ℕ) : natToDecChars n ≠ [] := by
  rw [natToDecChars_eq_digits]
  by_cases h : n = 0
  · subst h; decide
  · simp [h, Nat.digits_ne_nil_iff_ne_zero]

theorem padDecChars_length (w n : ℕ) :
    (padDecChars w n).length = max w (natToDecChars n).length := by
  simp only [padDecChars, List.length_append, List.length_replicate]
  omega

/-! ### C8: runway name normalization and variants -/

/-- Counterexample to C8 as stated: `normalizeRunway` drops the true-heading
suffix ("RW1T" normalizes to "01", not "01T"), and the variants list of
"RW1T" does not contain the name "RW1T" itself (its first entry is the
stripped "1"). -/
theorem claim_C8_counterexample :
    normalizeRunway ['R', 'W', '1', 'T'] = ['0', '1'] ∧
    (['R', 'W', '1', 'T'] ∈ runwayNameVariants ['R', 'W', '1', 'T']) = False ∧
    runwayNameVariants ['R', 'W', '1', 'T'] =
      [['1'], ['R', 'W', '0', '2', 'T'], ['R', 'W', '3', '6', 'T']] := by
  decide

set_option maxRecDepth 10000 in
/-- Claim C8 (amended): for the five sample names, `normalizeRunway` yields
the canonical two-digit form keeping the designator but stripping the "RW"
prefix and the true-heading suffix; and for every well-formed runway name,
`runwayNameVariants` yields exactly three names: the input with "RW" prefix
and 'T' suffix stripped, followed by the +1 and -1 numeric neighbors modulo
36 (36 wraps to 01 and 01 wraps to 36) with prefix and suffix retained. -/
theorem claim_C8_runway_normalize_variants :
    (normalizeRunway ['R', 'W', '1'] = ['0', '1'] ∧
     normalizeRunway ['0', '1'] = ['0', '1'] ∧
     normalizeRunway ['1', 'L'] = ['0', '1', 'L'] ∧
     normalizeRunway ['R', 'W', '0', '1', 'L', 'T'] = ['0', '1', 'L'] ∧
     normalizeRunway ['R', 'W', '1', 'T'] = ['0', '1']) ∧
    (∀ num : ℕ, num < 37 → 1 ≤ num →
      ∀ des ∈ [[], ['L'], ['R'], ['C'], ['W'], ['A'], ['B']], ∀ hasRW hasT : Bool,
      runwayNameVariants ((if hasRW then ['R', 'W'] else []) ++ padDecChars 2 num ++ des ++
          (if hasT then ['T'] else [])) =
        [padDecChars 2 num ++ des,
         (if hasRW then ['R', 'W'] else []) ++ padDecChars 2 (if num < 36 then num + 1 else 1) ++
           des ++ (if hasT then ['T'] else []),
         (if hasRW then ['R', 'W'] else []) ++ padDecChars 2 (if num > 1 then num - 1 else 36) ++
           des ++ (if hasT then ['T'] else [])]) := by
  constructor
  · decide
  · decide

/-- Witness for C8 at the concrete runway name "RW01LT". -/
theorem claim_C8_runway_normalize_variants_witness :
    runwayNameVariants ['R', 'W', '0', '1', 'L', 'T'] =
      [['0', '1', 'L'], ['R', 'W', '0', '2', 'L', 'T'], ['R', 'W', '3', '6', 'L', 'T']] :=
  claim_C8_runway_normalize_variants.2 1 (by decide) (by decide) ['L'] (by decide) true true

/-! ### C4: ARINC waypoint type codec -/

theorem char_toNat_ofNat {b : ℕ} (h : b < 55296) : (Char.ofNat b).toNat = b := by
  unfold Char.ofNat
  rw [dif_pos (Or.inl h)]
  rfl

/-- Claim C4: the ARINC waypoint-type codec round-trips: for every decimal
string representing a valid 3-byte ARINC type packed little-endian with the
fourth byte zero (each byte a printable ASCII character other than quote and
underscore), encoding the decoded three-character string yields the original
string again. With the fourth byte zero the packed word is below 2^24, so the
decimal string has at most eight digits (well within the ten digits of an
unsigned 32-bit word). -/
theorem claim_C4_arinc_roundtrip (b0 b1 b2 : ℕ)
    (h0 : 32 ≤ b0 ∧ b0 < 127 ∧ b0 ≠ 34 ∧ b0 ≠ 95)
    (h1 : 32 ≤ b1 ∧ b1 < 127 ∧ b1 ≠ 34 ∧ b1 ≠ 95)
    (h2 : 32 ≤ b2 ∧ b2 < 127 ∧ b2 ≠ 34 ∧ b2 ≠ 95) :
    waypointFlagsToXplane
      (waypointFlagsFromXplane (natToDecChars (b0 + 256 * b1 + 65536 * b2)) []) [] =
      natToDecChars (b0 + 256 * b1 + 65536 * b2) := by
  obtain ⟨h0a, h0b, h0c, h0d⟩ := h0
  obtain ⟨h1a, h1b, h1c, h1d⟩ := h1
  obtain ⟨h2a, h2b, h2c, h2d⟩ := h2
  set n := b0 + 256 * b1 + 65536 * b2 with hn
  have hparse : qToUInt (natToDecChars n) = some n := by
    unfold qToUInt
    rw [if_pos]
    · rw [decCharsValue_natToDecChars]
    · refine ⟨natToDecChars_ne_nil n, ?_, ?_⟩
      · rw [List.all_eq_true]
        exact natToDecChars_all_digits n
      · rw [decCharsValue_natToDecChars]; omega
  have hb0 : n % 256 = b0 := by omega
  have hb1 : n / 256 % 256 = b1 := by omega
  have hb2 : n / 65536 % 256 = b2 := by omega
  have hb3 : n / 16777216 % 256 = 0 := by omega
  have hdec : waypointFlagsFromXplane (natToDecChars n) [] =
      [Char.ofNat b0, Char.ofNat b1, Char.ofNat b2] := by
    unfold waypointFlagsFromXplane
    rw [hparse]
    dsimp only
    rw [hb0, hb1, hb2, hb3]
    rw [if_pos (by omega), if_pos (by omega), if_pos (by omega), if_neg (by omega)]
    rfl
  rw [hdec]
  unfold waypointFlagsToXplane
  have t0 : (Char.ofNat b0).toNat = b0 := char_toNat_ofNat (by omega)
  have t1 : (Char.ofNat b1).toNat = b1 := char_toNat_ofNat (by omega)
  have t2 : (Char.ofNat b2).toNat = b2 := char_toNat_ofNat (by omega)
  have ne0u : (Char.ofNat b0 = '_') = False := by
    simp only [eq_iff_iff, iff_false]
    intro hcon
    exact h0d (by rw [← t0, hcon]; rfl)
  have ne1u : (Char.ofNat b1 = '_') = False := by
    simp only [eq_iff_iff, iff_false]
    intro hcon
    exact h1d (by rw [← t1, hcon]; rfl)
  have ne2u : (Char.ofNat b2 = '_') = False := by
    simp only [eq_iff_iff, iff_false]
    intro hcon
    exact h2d (by rw [← t2, hcon]; rfl)
  have ne0q : (Char.ofNat b0 != '"') = true := by
    simp only [bne_iff_ne, ne_eq]
    intro hcon
    exact h0c (by rw [← t0, hcon]; rfl)
  have ne1q : (Char.ofNat b1 != '"') = true := by
    simp only [bne_iff_ne, ne_eq]
    intro hcon
    exact h1c (by rw [← t1, hcon]; rfl)
  have ne2q : (Char.ofNat b2 != '"') = true := by
    simp only [bne_iff_ne, ne_eq]
    intro hcon
    exact h2c (by rw [← t2, hcon]; rfl)
  simp only [List.map_cons, List.map_nil, ne0u, ne1u, ne2u, if_false,
    List.filter_cons, ne0q, ne1q, ne2q, if_true, List.filter_nil]
  rw [show strToUChar (Char.ofNat b0) = b0 from t0, show strToUChar (Char.ofNat b1) = b1 from t1,
    show strToUChar (Char.ofNat b2) = b2 from t2]

/-- Witness for C4 at the concrete ARINC type bytes of "VWR". -/
theorem claim_C4_arinc_roundtrip_witness :
    waypointFlagsToXplane
      (waypointFlagsFromXplane (natToDecChars (86 + 256 * 87 + 65536 * 82)) []) [] =
      natToDecChars (86 + 256 * 87 + 65536 * 82) :=
  claim_C4_arinc_roundtrip 86 87 82 (by decide) (by decide) (by decide)

/-! ### C6: parking record decoding -/

/-- Counterexample to C6 as stated: decoding the example flags word
`0x02015123` assigns pushback `0x0` (not `0x1`) and type `0x1` (not `0x5`);
name, number and airline-code count come out as claimed. -/
theorem claim_C6_counterexample :
    (parkingParse exParkingBytes 0 .STRUCT_FS9).1.pushBack = 0 ∧
    (parkingParse exParkingBytes 0 .STRUCT_FS9).1.type = 1 ∧
    (parkingParse exParkingBytes 0 .STRUCT_FS9).1.pushBack ≠ 0x1 ∧
    (parkingParse exParkingBytes 0 .STRUCT_FS9).1.type ≠ 0x5 ∧
    (parkingParse exParkingBytes 0 .STRUCT_FS9).1.name = 0x23 ∧
    (parkingParse exParkingBytes 0 .STRUCT_FS9).1.number = 21 ∧
    (parkingParse exParkingBytes 0 .STRUCT_FS9).1.numAirlineCodes = 2 := by
  decide

open StructureType in
/-- Claim C6 (amended): decoding a parking record takes one 32-bit flags word
and assigns name from the low 6 bits, pushback from the next 2 bits, type
from the next 4 bits, number from the next 12 bits and airline-code count
from the top 8 bits (so for the word `0x02015123`: name `0x23`, pushback
`0x0`, type `0x1`, number 21, count 2 — not pushback `0x1` and type `0x5` as
originally exemplified); radius and heading follow as 32-bit float words; the
16-byte tee-offset block is read only for FSX/P3Dv4/P3Dv5/MSFS; and for MSFS
a 1-byte pad and a 1-byte suffix enum follow, with 18 further bytes
skipped. -/
theorem claim_C6_parking_decode (d : ℕ → ℕ) (start w : ℕ) (st : StructureType)
    (hw : w < 2 ^ 32)
    (h0 : d start = w % 256) (h1 : d (start + 1) = w / 256 % 256)
    (h2 : d (start + 2) = w / 65536 % 256) (h3 : d (start + 3) = w / 16777216 % 256) :
    (parkingParse d start st).1.name = w % 2 ^ 6 ∧
    (parkingParse d start st).1.pushBack = w / 2 ^ 6 % 2 ^ 2 ∧
    (parkingParse d start st).1.type = w / 2 ^ 8 % 2 ^ 4 ∧
    (parkingParse d start st).1.number = w / 2 ^ 12 % 2 ^ 12 ∧
    (parkingParse d start st).1.numAirlineCodes = w / 2 ^ 24 % 2 ^ 8 ∧
    (parkingParse d start st).1.radius = readUIntAt d (start + 4) ∧
    (parkingParse d start st).1.heading = readUIntAt d (start + 8) ∧
    (parkingParse d start st).2 = start + 12 +
      (if st = STRUCT_FSX ∨ st = STRUCT_P3DV4 ∨ st = STRUCT_P3DV5 ∨ st = STRUCT_MSFS
       then 16 else 0) + 12 + 4 * (w / 2 ^ 24 % 2 ^ 8) +
      (if st = STRUCT_P3DV5 then 4 else 0) + (if st = STRUCT_MSFS then 20 else 0) ∧
    (parkingParse d start st).1.suffix =
      (if st = STRUCT_MSFS then
        some (readByteAt d (start + 41 + 4 * (w / 2 ^ 24 % 2 ^ 8))) else none) := by
  have hfl : readUIntAt d start = w := by
    unfold readUIntAt readByteAt
    rw [h0, h1, h2, h3]
    omega
  unfold parkingParse
  cases st <;> simp [hfl] <;>
    first
      | omega
      | rw [show start + 12 + 16 + 12 + 4 * (w / 16777216 % 256) + 1 =
            start + 41 + 4 * (w / 16777216 % 256) from by ring]

/-- Witness for C6 at the flags word `0x02015563` (the word that actually
carries pushback `0x1` and type `0x5`) on an MSFS-variant stream. -/
theorem claim_C6_parking_decode_witness :
    (parkingParse (fun p =>
        if p = 0 then 0x63 else if p = 1 then 0x55 else if p = 2 then 0x01
        else if p = 3 then 0x02 else 0) 0 .STRUCT_MSFS).1.pushBack = 0x02015563 / 2 ^ 6 % 2 ^ 2 ∧
    (parkingParse (fun p =>
        if p = 0 then 0x63 else if p = 1 then 0x55 else if p = 2 then 0x01
        else if p = 3 then 0x02 else 0) 0 .STRUCT_MSFS).1.type = 0x02015563 / 2 ^ 8 % 2 ^ 4 :=
  ⟨(claim_C6_parking_decode (fun p =>
      if p = 0 then 0x63 else if p = 1 then 0x55 else if p = 2 then 0x01
      else if p = 3 then 0x02 else 0) 0 0x02015563 .STRUCT_MSFS (by decide) (by decide)
      (by decide) (by decide) (by decide)).2.1,
   (claim_C6_parking_decode (fun p =>
      if p = 0 then 0x63 else if p = 1 then 0x55 else if p = 2 then 0x01
      else if p = 3 then 0x02 else 0) 0 0x02015563 .STRUCT_MSFS (by decide) (by decide)
      (by decide) (by decide) (by decide)).2.2.1⟩

/-! ### C1: duplicate airport ident policy -/

theorem airportIdentStep_eq (counts : Ident → ℕ) (ident : Ident) :
    airportIdentStep counts ident =
      if 3 < counts ident then none
      else some (fun x => if x = ident then counts x + 1 else counts x) := by
  unfold airportIdentStep
  by_cases h : counts ident = 0
  · rw [if_pos h, if_neg (by omega)]
    congr 1
    funext x
    by_cases hx : x = ident
    · simp [hx, h]
    · simp [hx]
  · rw [if_neg h]

theorem readAirportRecords_ok (f : List Ident) :
    ∀ (counts : Ident → ℕ) (acc : List Ident),
      (∀ id, counts id + f.count id ≤ 4) →
      readAirportRecords counts acc f = some (acc.reverse ++ f) := by
  induction f with
  | nil => intro counts acc h; simp [readAirportRecords]
  | cons ident rest ih =>
    intro counts acc h
    have hcnt := h ident
    have hc : (ident :: rest).count ident = rest.count ident + 1 := by
      simp [List.count_cons]
    rw [readAirportRecords, airportIdentStep_eq, if_neg (by omega)]
    have hstep := ih (fun x => if x = ident then counts x + 1 else counts x) (ident :: acc) ?_
    · simpa using hstep
    · intro x
      by_cases hx : x = ident
      · subst hx
        show (if x = x then counts x + 1 else counts x) + rest.count x ≤ 4
        rw [if_pos rfl]
        omega
      · have := h x
        have hcx : (ident :: rest).count x = rest.count x := by
          simp [List.count_cons, hx]
        show (if x = ident then counts x + 1 else counts x) + rest.count x ≤ 4
        rw [if_neg hx]
        omega

theorem readAirportRecords_abort (f : List Ident) :
    ∀ (counts : Ident → ℕ) (acc : List Ident),
      (∃ id, counts id ≤ 4 ∧ 5 ≤ counts id + f.count id) →
      readAirportRecords counts acc f = none := by
  induction f with
  | nil =>
    intro counts acc h
    obtain ⟨id, h1, h2⟩ := h
    simp at h2
    omega
  | cons ident rest ih =>
    intro counts acc h
    obtain ⟨id, h1, h2⟩ := h
    rw [readAirportRecords, airportIdentStep_eq]
    by_cases habort : 3 < counts ident
    · rw [if_pos habort]
    · rw [if_neg habort]
      apply ih
      by_cases hx : id = ident
      · subst hx
        have hc : (id :: rest).count id = rest.count id + 1 := by
          simp [List.count_cons]
        refine ⟨id, ?_, ?_⟩
        · show (if id = id then counts id + 1 else counts id) ≤ 4
          rw [if_pos rfl]
          omega
        · show 5 ≤ (if id = id then counts id + 1 else counts id) + rest.count id
          rw [if_pos rfl]
          omega
      · have hcx : (ident :: rest).count id = rest.count id := by
          simp [List.count_cons, hx]
        refine ⟨id, ?_, ?_⟩
        · show (if id = ident then counts id + 1 else counts id) ≤ 4
          rw [if_neg hx]
          omega
        · show 5 ≤ (if id = ident then counts id + 1 else counts id) + rest.count id
          rw [if_neg hx]
          omega

theorem mem_dedupKeepFirstGo (fuel : ℕ) :
    ∀ (l : List Ident), l.length ≤ fuel → ∀ id, (id ∈ dedupKeepFirstGo fuel l ↔ id ∈ l) := by
  induction fuel with
  | zero => intro l hl id; rfl
  | succ f ih =>
    intro l hl id
    match l with
    | [] => rfl
    | x :: xs =>
      have hlen : (xs.filter (fun y => y ≠ x)).length ≤ f :=
        le_trans (List.length_filter_le _ _) (by simpa using hl)
      simp only [dedupKeepFirstGo, List.mem_cons, ih _ hlen, List.mem_filter]
      constructor
      · rintro (rfl | ⟨hmem, -⟩)
        · exact Or.inl rfl
        · exact Or.inr hmem
      · rintro (rfl | hmem)
        · exact Or.inl rfl
        · by_cases hx : id = x
          · exact Or.inl hx
          · exact Or.inr ⟨hmem, by simpa using hx⟩

theorem nodup_dedupKeepFirstGo (fuel : ℕ) :
    ∀ (l : List Ident), l.length ≤ fuel → (dedupKeepFirstGo fuel l).Nodup := by
  induction fuel with
  | zero =>
    intro l hl
    have hnil : l = [] := List.length_eq_zero.mp (le_antisymm hl (Nat.zero_le _))
    subst hnil
    exact List.nodup_nil
  | succ f ih =>
    intro l hl
    match l with
    | [] => exact List.nodup_nil
    | x :: xs =>
      have hlen : (xs.filter (fun y => y ≠ x)).length ≤ f :=
        le_trans (List.length_filter_le _ _) (by simpa using hl)
      rw [dedupKeepFirstGo, List.nodup_cons]
      refine ⟨?_, ih _ hlen⟩
      intro hmem
      rw [mem_dedupKeepFirstGo f _ hlen, List.mem_filter] at hmem
      simp at hmem

/-- Claim C1: a file whose airport idents each occur at most 4 times (at most
3 duplicates) is read completely, and the writer produces exactly one airport
row per distinct ident with no recorded error; a file in which some ident
occurs at least 5 times (4 or more duplicates) is aborted: it produces zero
airport rows and exactly one recorded file error; and in both cases the
pipeline continues with the next file. -/
theorem claim_C1_duplicate_airport_policy (f : List Ident) (rest : List (List Ident)) :
    ((∀ id, f.count id ≤ 4) →
      processFile f = (dedupKeepFirst f, 0) ∧ (processFile f).1.Nodup ∧
        ∀ id, id ∈ (processFile f).1 ↔ id ∈ f) ∧
    ((∃ id, 5 ≤ f.count id) → processFile f = ([], 1)) ∧
    processFiles (f :: rest) = processFile f :: processFiles rest := by
  refine ⟨?_, ?_, rfl⟩
  · intro h
    have hok : readAirportRecords (fun _ => 0) [] f = some f := by
      have h2 := readAirportRecords_ok f (fun _ => 0) [] (fun id => by simpa using h id)
      simpa using h2
    have hpf : processFile f = (dedupKeepFirst f, 0) := by
      unfold processFile
      rw [hok]
    refine ⟨hpf, ?_, ?_⟩
    · rw [hpf]
      exact nodup_dedupKeepFirstGo f.length f le_rfl
    · intro id
      rw [hpf]
      exact mem_dedupKeepFirstGo f.length f le_rfl id
  · intro hex
    obtain ⟨id, hid⟩ := hex
    have habort : readAirportRecords (fun _ => 0) [] f = none :=
      readAirportRecords_abort f (fun _ => 0) [] ⟨id, Nat.zero_le 4, by simpa using hid⟩
    unfold processFile
    rw [habort]

/-- Witness for C1: a file with one tolerated duplicate keeps one row per
distinct ident; a file with four duplicates of "ZZZZ" (five records) yields
zero rows and one error. -/
theorem claim_C1_duplicate_airport_policy_witness :
    processFile [['E', 'D', 'D', 'F'], ['Z', 'Z', 'Z', 'Z'], ['E', 'D', 'D', 'F']] =
      ([['E', 'D', 'D', 'F'], ['Z', 'Z', 'Z', 'Z']], 0) ∧
    processFile [['Z', 'Z', 'Z', 'Z'], ['Z', 'Z', 'Z', 'Z'], ['Z', 'Z', 'Z', 'Z'],
      ['Z', 'Z', 'Z', 'Z'], ['Z', 'Z', 'Z', 'Z']] = ([], 1) :=
  ⟨((claim_C1_duplicate_airport_policy _ []).1
      (fun id => le_trans (List.count_le_length id _) (by norm_num))).1,
   (claim_C1_duplicate_airport_policy _ []).2.1 ⟨['Z', 'Z', 'Z', 'Z'], by decide⟩⟩

/-! ### C10: airport rating -/

/-- Claim C10: for all boolean flags and all non-negative counts, both airport
rating functions stay between 0 and 5 inclusive, and the has-tower bonus is
added only when the rating is already positive: with the tower flag set the
result equals the towerless result plus one exactly when the towerless result
is positive, and the two results coincide when the towerless result is zero. -/
theorem claim_C10_airport_rating_bounds (isAddon is3D hasTower msfs : Bool)
    (numTaxiPaths numParkings numAprons : ℕ) :
    calculateAirportRating isAddon hasTower msfs numTaxiPaths numParkings numAprons ≤ 5 ∧
    calculateAirportRatingXp isAddon is3D hasTower numTaxiPaths numParkings numAprons ≤ 5 ∧
    calculateAirportRating isAddon true msfs numTaxiPaths numParkings numAprons =
      calculateAirportRating isAddon false msfs numTaxiPaths numParkings numAprons +
        (if calculateAirportRating isAddon false msfs numTaxiPaths numParkings numAprons = 0
         then 0 else 1) ∧
    calculateAirportRatingXp isAddon is3D true numTaxiPaths numParkings numAprons =
      calculateAirportRatingXp isAddon is3D false numTaxiPaths numParkings numAprons +
        (if calculateAirportRatingXp isAddon is3D false numTaxiPaths numParkings numAprons = 0
         then 0 else 1) := by
  have hbase : ∀ (b : Bool) (t p a : ℕ), airportFacilityRating b t p a ≤ 4 := by
    intro b t p a
    unfold airportFacilityRating
    split_ifs <;> omega
  have hb1 := hbase isAddon numTaxiPaths numParkings numAprons
  have hb2 := hbase (isAddon || is3D) numTaxiPaths numParkings numAprons
  refine ⟨?_, ?_, ?_, ?_⟩
  · unfold calculateAirportRating
    dsimp only
    split_ifs <;> omega
  · unfold calculateAirportRatingXp
    dsimp only
    split_ifs <;> omega
  · unfold calculateAirportRating
    dsimp only
    simp only [eq_self_iff_true, and_true, Bool.false_eq_true, and_false, if_false]
    split_ifs <;> omega
  · unfold calculateAirportRatingXp
    dsimp only
    simp only [eq_self_iff_true, and_true, Bool.false_eq_true, and_false, if_false]
    split_ifs <;> omega

/-! ### C9: ICAO speed/altitude codec round trip -/

theorem rndNat_bounds {q : ℚ} (h : 0 ≤ q) :
    q - 1 / 2 ≤ (rndNat q : ℚ) ∧ (rndNat q : ℚ) ≤ q + 1 / 2 := by
  have hnn : (0 : ℤ) ≤ ⌊q + 1 / 2⌋ := Int.floor_nonneg.mpr (by linarith)
  have hcast : ((rndNat q : ℕ) : ℚ) = ((⌊q + 1 / 2⌋ : ℤ) : ℚ) := by
    unfold rndNat
    exact_mod_cast Int.toNat_of_nonneg hnn
  constructor
  · rw [hcast]
    have := Int.sub_one_lt_floor (q + 1 / 2)
    have h2 : ((⌊q + 1 / 2⌋ : ℤ) : ℚ) > q + 1 / 2 - 1 := by exact_mod_cast this
    linarith
  · rw [hcast]
    have := Int.floor_le (q + 1 / 2)
    linarith

theorem rndNat_le {q : ℚ} {m : ℕ} (h : q + 1 / 2 < m + 1) : rndNat q ≤ m := by
  unfold rndNat
  rw [Int.toNat_le]
  have : (⌊q + 1 / 2⌋ : ℚ) ≤ q + 1 / 2 := Int.floor_le _
  have h2 : ⌊q + 1 / 2⌋ < (m : ℤ) + 1 := by
    have : ((⌊q + 1 / 2⌋ : ℤ) : ℚ) < (m : ℚ) + 1 := by linarith
    exact_mod_cast this
  omega

theorem takeWhile_append_not (p : Char → Bool) (l1 : List Char) (c0 : Char) (l2 : List Char)
    (h1 : ∀ c ∈ l1, p c = true) (h0 : p c0 = false) :
    (l1 ++ c0 :: l2).takeWhile p = l1 ∧ (l1 ++ c0 :: l2).dropWhile p = c0 :: l2 := by
  induction l1 with
  | nil => simp [List.takeWhile, List.dropWhile, h0]
  | cons c cs ih =>
    have hc : p c = true := h1 c (by simp)
    have ihr := ih (fun x hx => h1 x (by simp [hx]))
    simp only [List.cons_append, List.takeWhile_cons, List.dropWhile_cons, hc, if_true]
    exact ⟨by rw [ihr.1], by rw [ihr.2]⟩

theorem padDecChars_len_between {w n : ℕ} (hw2 : 2 ≤ w) (hw4 : w ≤ 4) (hn : n ≤ 9999) :
    2 ≤ (padDecChars w n).length ∧ (padDecChars w n).length ≤ 4 := by
  have hd : (natToDecChars n).length ≤ 4 := natToDecChars_length_le (by norm_num) (by omega)
  rw [padDecChars_length]
  omega

theorem extract_structured (u aU : Char) (w1 n1 w2 n2 : ℕ)
    (hu : u = 'N' ∨ u = 'M' ∨ u = 'K') (ha : aU = 'F' ∨ aU = 'S' ∨ aU = 'A' ∨ aU = 'M')
    (haD : charIsDigit aU = false)
    (h1l : 2 ≤ (padDecChars w1 n1).length) (h1u : (padDecChars w1 n1).length ≤ 4)
    (h2l : 2 ≤ (padDecChars w2 n2).length) (h2u : (padDecChars w2 n2).length ≤ 4) :
    extractSpeedAndAltitude (u :: (padDecChars w1 n1 ++ aU :: padDecChars w2 n2)) =
      some (parsedSpeedKnots u (n1 : ℚ) (parsedAltFeet aU (n2 : ℚ)),
            parsedAltFeet aU (n2 : ℚ)) := by
  have htw := takeWhile_append_not charIsDigit (padDecChars w1 n1) aU (padDecChars w2 n2)
    (padDecChars_all_digits w1 n1) haD
  unfold extractSpeedAndAltitude
  dsimp only
  rw [if_pos hu, htw.1, htw.2]
  rw [if_pos ⟨h1l, h1u⟩]
  dsimp only
  rw [if_pos ⟨ha, by rw [List.all_eq_true]; exact padDecChars_all_digits w2 n2, h2l, h2u⟩]
  rw [decCharsValue_padDecChars, decCharsValue_padDecChars]

theorem parsedSpeedKnots_N (n1 altF : ℚ) : parsedSpeedKnots 'N' n1 altF = n1 := by
  unfold parsedSpeedKnots
  rw [if_neg (by decide), if_pos rfl]

theorem parsedSpeedKnots_K (n1 altF : ℚ) :
    parsedSpeedKnots 'K' n1 altF = meterToNm (n1 * 1000) := by
  unfold parsedSpeedKnots
  rw [if_pos rfl]

theorem parsedAltFeet_A {n2 : ℚ} (h : n2 < 1000) : parsedAltFeet 'A' n2 = n2 * 100 := by
  unfold parsedAltFeet
  rw [if_neg (by decide), if_neg (by decide), if_pos rfl, if_neg (by linarith)]

theorem parsedAltFeet_F {n2 : ℚ} (h : n2 < 1000) : parsedAltFeet 'F' n2 = n2 * 100 := by
  unfold parsedAltFeet
  rw [if_pos rfl, if_neg (by linarith)]

theorem parsedAltFeet_M (n2 : ℚ) : parsedAltFeet 'M' n2 = meterToFeet (n2 * 10) := by
  unfold parsedAltFeet
  rw [if_neg (by decide), if_neg (by decide), if_neg (by decide)]

theorem parsedAltFeet_S (n2 : ℚ) : parsedAltFeet 'S' n2 = meterToFeet (n2 * 10) := by
  unfold parsedAltFeet
  rw [if_neg (by decide), if_pos rfl]

theorem speedN_close {s : ℚ} (hs0 : 0 ≤ s) : |((rndNat s : ℕ) : ℚ) - s| ≤ 1 := by
  have h := rndNat_bounds hs0
  rw [abs_le]
  constructor <;> linarith

theorem speedK_close {s : ℚ} (hs0 : 0 ≤ s) :
    |meterToNm (((rndNat (knotsToKmh s) : ℕ) : ℚ) * 1000) - s| ≤ 1 := by
  have h := rndNat_bounds (q := knotsToKmh s) (by unfold knotsToKmh; positivity)
  unfold knotsToKmh at h ⊢
  unfold meterToNm
  rw [abs_le]
  constructor <;> linarith

theorem altAF_close {a : ℚ} (ha0 : 0 ≤ a) :
    |((rndNat (a / 100) : ℕ) : ℚ) * 100 - a| ≤ 100 := by
  have h := rndNat_bounds (q := a / 100) (by positivity)
  rw [abs_le]
  constructor <;> linarith

theorem altMS_close {a : ℚ} (ha0 : 0 ≤ a) :
    |meterToFeet (((rndNat (feetToMeter a / 10) : ℕ) : ℚ) * 10) - a| ≤ 100 := by
  have h := rndNat_bounds (q := feetToMeter a / 10) (by unfold feetToMeter; positivity)
  unfold feetToMeter at h ⊢
  unfold meterToFeet
  rw [abs_le]
  constructor <;> linarith

/-- Claim C9: the ICAO speed/altitude codec round-trips: for every pair
(speed in knots, altitude in feet) in the defined ranges (speed 0..5399 kt so
that both the knots and km/h encodings fit four digits, altitude 0..99949 ft
so that the flight-level token stays below 1000), parsing the formatted
string recovers the speed within 1 knot and the altitude within 100 feet,
for both the knots/feet and the metric (km/h, tens-of-meters) encodings. -/
theorem claim_C9_speed_alt_roundtrip (s a : ℚ) (ms ma : Bool)
    (hs0 : 0 ≤ s) (hs1 : s ≤ 5399) (ha0 : 0 ≤ a) (ha1 : a ≤ 99949) :
    ∃ s2 a2,
      extractSpeedAndAltitude (createSpeedAndAltitude s a ms ma) = some (s2, a2) ∧
      |s2 - s| ≤ 1 ∧ |a2 - a| ≤ 100 := by
  have ht1N : rndNat s ≤ 9999 := rndNat_le (by linarith)
  have ht1K : rndNat (knotsToKmh s) ≤ 9999 := by
    apply rndNat_le
    unfold knotsToKmh
    linarith
  have hbN := padDecChars_len_between (w := 4) (n := rndNat s) (by norm_num) (by norm_num) ht1N
  have hbK := padDecChars_len_between (w := 4) (n := rndNat (knotsToKmh s)) (by norm_num)
    (by norm_num) ht1K
  cases ms <;> cases ma
  · by_cases hcmp : a < 18000
    · have ht2 : rndNat (a / 100) ≤ 180 := rndNat_le (by linarith)
      have hb2 := padDecChars_len_between (w := 3) (n := rndNat (a / 100)) (by norm_num)
        (by norm_num) (by omega)
      have hc : createSpeedAndAltitude s a false false =
          'N' :: (padDecChars 4 (rndNat s) ++ 'A' :: padDecChars 3 (rndNat (a / 100))) := by
        unfold createSpeedAndAltitude
        rw [if_neg (by decide), if_neg (by decide), if_pos hcmp]
        rfl
      rw [hc, extract_structured 'N' 'A' 4 (rndNat s) 3 (rndNat (a / 100))
        (by decide) (by decide) (by decide) hbN.1 hbN.2 hb2.1 hb2.2]
      have hlt : ((rndNat (a / 100) : ℕ) : ℚ) < 1000 := by
        have : ((rndNat (a / 100) : ℕ) : ℚ) ≤ 180 := by exact_mod_cast ht2
        linarith
      rw [parsedAltFeet_A hlt, parsedSpeedKnots_N]
      exact ⟨_, _, rfl, speedN_close hs0, altAF_close ha0⟩
    · have ht2 : rndNat (a / 100) ≤ 999 := rndNat_le (by linarith)
      have hb2 := padDecChars_len_between (w := 3) (n := rndNat (a / 100)) (by norm_num)
        (by norm_num) (by omega)
      have hc : createSpeedAndAltitude s a false false =
          'N' :: (padDecChars 4 (rndNat s) ++ 'F' :: padDecChars 3 (rndNat (a / 100))) := by
        unfold createSpeedAndAltitude
        rw [if_neg (by decide), if_neg (by decide), if_neg hcmp]
        rfl
      rw [hc, extract_structured 'N' 'F' 4 (rndNat s) 3 (rndNat (a / 100))
        (by decide) (by decide) (by decide) hbN.1 hbN.2 hb2.1 hb2.2]
      have hlt : ((rndNat (a / 100) : ℕ) : ℚ) < 1000 := by
        have : ((rndNat (a / 100) : ℕ) : ℚ) ≤ 999 := by exact_mod_cast ht2
        linarith
      rw [parsedAltFeet_F hlt, parsedSpeedKnots_N]
      exact ⟨_, _, rfl, speedN_close hs0, altAF_close ha0⟩
  · by_cases hcmp : a < feetToMeter 18000
    · have ht2 : rndNat (feetToMeter a / 10) ≤ 9999 := by
        apply rndNat_le
        unfold feetToMeter at hcmp ⊢
        linarith
      have hb2 := padDecChars_len_between (w := 4) (n := rndNat (feetToMeter a / 10))
        (by norm_num) (by norm_num) ht2
      have hc : createSpeedAndAltitude s a false true =
          'N' :: (padDecChars 4 (rndNat s) ++
            'M' :: padDecChars 4 (rndNat (feetToMeter a / 10))) := by
        unfold createSpeedAndAltitude
        rw [if_neg (by decide), if_pos (by decide : (true = true)), if_pos hcmp]
        rfl
      rw [hc, extract_structured 'N' 'M' 4 (rndNat s) 4 (rndNat (feetToMeter a / 10))
        (by decide) (by decide) (by decide) hbN.1 hbN.2 hb2.1 hb2.2]
      rw [parsedAltFeet_M, parsedSpeedKnots_N]
      exact ⟨_, _, rfl, speedN_close hs0, altMS_close ha0⟩
    · have ht2 : rndNat (feetToMeter a / 10) ≤ 9999 := by
        apply rndNat_le
        unfold feetToMeter
        linarith
      have hb2 := padDecChars_len_between (w := 3) (n := rndNat (feetToMeter a / 10))
        (by norm_num) (by norm_num) ht2
      have hc : createSpeedAndAltitude s a false true =
          'N' :: (padDecChars 4 (rndNat s) ++
            'S' :: padDecChars 3 (rndNat (feetToMeter a / 10))) := by
        unfold createSpeedAndAltitude
        rw [if_neg (by decide), if_pos (by decide : (true = true)), if_neg hcmp]
        rfl
      rw [hc, extract_structured 'N' 'S' 4 (rndNat s) 3 (rndNat (feetToMeter a / 10))
        (by decide) (by decide) (by decide) hbN.1 hbN.2 hb2.1 hb2.2]
      rw [parsedAltFeet_S, parsedSpeedKnots_N]
      exact ⟨_, _, rfl, speedN_close hs0, altMS_close ha0⟩
  · by_cases hcmp : a < 18000
    · have ht2 : rndNat (a / 100) ≤ 180 := rndNat_le (by linarith)
      have hb2 := padDecChars_len_between (w := 3) (n := rndNat (a / 100)) (by norm_num)
        (by norm_num) (by omega)
      have hc : createSpeedAndAltitude s a true false =
          'K' :: (padDecChars 4 (rndNat (knotsToKmh s)) ++
            'A' :: padDecChars 3 (rndNat (a / 100))) := by
        unfold createSpeedAndAltitude
        rw [if_pos (by decide : (true = true)), if_neg (by decide), if_pos hcmp]
        rfl
      rw [hc, extract_structured 'K' 'A' 4 (rndNat (knotsToKmh s)) 3 (rndNat (a / 100))
        (by decide) (by decide) (by decide) hbK.1 hbK.2 hb2.1 hb2.2]
      have hlt : ((rndNat (a / 100) : ℕ) : ℚ) < 1000 := by
        have : ((rndNat (a / 100) : ℕ) : ℚ) ≤ 180 := by exact_mod_cast ht2
        linarith
      rw [parsedAltFeet_A hlt, parsedSpeedKnots_K]
      exact ⟨_, _, rfl, speedK_close hs0, altAF_close ha0⟩
    · have ht2 : rndNat (a / 100) ≤ 999 := rndNat_le (by linarith)
      have hb2 := padDecChars_len_between (w := 3) (n := rndNat (a / 100)) (by norm_num)
        (by norm_num) (by omega)
      have hc : createSpeedAndAltitude s a true false =
          'K' :: (padDecChars 4 (rndNat (knotsToKmh s)) ++
            'F' :: padDecChars 3 (rndNat (a / 100))) := by
        unfold createSpeedAndAltitude
        rw [if_pos (by decide : (true = true)), if_neg (by decide), if_neg hcmp]
        rfl
      rw [hc, extract_structured 'K' 'F' 4 (rndNat (knotsToKmh s)) 3 (rndNat (a / 100))
        (by decide) (by decide) (by decide) hbK.1 hbK.2 hb2.1 hb2.2]
      have hlt : ((rndNat (a / 100) : ℕ) : ℚ) < 1000 := by
        have : ((rndNat (a / 100) : ℕ) : ℚ) ≤ 999 := by exact_mod_cast ht2
        linarith
      rw [parsedAltFeet_F hlt, parsedSpeedKnots_K]
      exact ⟨_, _, rfl, speedK_close hs0, altAF_close ha0⟩
  · by_cases hcmp : a < feetToMeter 18000
    · have ht2 : rndNat (feetToMeter a / 10) ≤ 9999 := by
        apply rndNat_le
        unfold feetToMeter at hcmp ⊢
        linarith
      have hb2 := padDecChars_len_between (w := 4) (n := rndNat (feetToMeter a / 10))
        (by norm_num) (by norm_num) ht2
      have hc : createSpeedAndAltitude s a true true =
          'K' :: (padDecChars 4 (rndNat (knotsToKmh s)) ++
            'M' :: padDecChars 4 (rndNat (feetToMeter a / 10))) := by
        unfold createSpeedAndAltitude
        rw [if_pos (by decide : (true = true)), if_pos (by decide : (true = true)), if_pos hcmp]
        rfl
      rw [hc, extract_structured 'K' 'M' 4 (rndNat (knotsToKmh s)) 4
        (rndNat (feetToMeter a / 10))
        (by decide) (by decide) (by decide) hbK.1 hbK.2 hb2.1 hb2.2]
      rw [parsedAltFeet_M, parsedSpeedKnots_K]
      exact ⟨_, _, rfl, speedK_close hs0, altMS_close ha0⟩
    · have ht2 : rndNat (feetToMeter a / 10) ≤ 9999 := by
        apply rndNat_le
        unfold feetToMeter
        linarith
      have hb2 := padDecChars_len_between (w := 3) (n := rndNat (feetToMeter a / 10))
        (by norm_num) (by norm_num) ht2
      have hc : createSpeedAndAltitude s a true true =
          'K' :: (padDecChars 4 (rndNat (knotsToKmh s)) ++
            'S' :: padDecChars 3 (rndNat (feetToMeter a / 10))) := by
        unfold createSpeedAndAltitude
        rw [if_pos (by decide : (true = true)), if_pos (by decide : (true = true)), if_neg hcmp]
        rfl
      rw [hc, extract_structured 'K' 'S' 4 (rndNat (knotsToKmh s)) 3
        (rndNat (feetToMeter a / 10))
        (by decide) (by decide) (by decide) hbK.1 hbK.2 hb2.1 hb2.2]
      rw [parsedAltFeet_S, parsedSpeedKnots_K]
      exact ⟨_, _, rfl, speedK_close hs0, altMS_close ha0⟩

/-- Witness for C9 at the ICAO example pair N0490/F360. -/
theorem claim_C9_speed_alt_roundtrip_witness :
    ∃ s2 a2,
      extractSpeedAndAltitude (createSpeedAndAltitude 490 36000 false false) = some (s2, a2) ∧
      |s2 - 490| ≤ 1 ∧ |a2 - 36000| ≤ 100 :=
  claim_C9_speed_alt_roundtrip 490 36000 false false (by norm_num) (by norm_num) (by norm_num)
    (by norm_num)

/-! ### C2: forward progress of the record dispatch -/

/-- Counterexample to C2 as stated: a record whose declared size is not below
the file size is not repositioned — with file size 100, a record at offset 60
declaring size 150 whose parser consumed 6 bytes leaves the stream at 66, not
at 60 + 150 = 210. -/
theorem claim_C2_counterexample :
    readRecordsReposition 100 60 150 66 = 66 ∧
    readRecordsReposition 100 60 150 66 ≠ 60 + 150 := by
  decide

/-- Claim C2 (amended): for every dispatched record whose declared size is
below the file size, the stream position afterwards equals the record's
start offset plus its declared size, regardless of where the concrete parser
left the stream (success, short parse, or unknown-type skip) — so the whole
record loop is independent of the parser-consumption behavior; a record
whose declared size reaches the file size only draws a warning and no
reposition happens. -/
theorem claim_C2_forward_progress (fileSize : ℕ) (sizeAt c1 c2 : ℕ → ℕ) :
    (∀ start size parsedPos, size < fileSize →
      readRecordsReposition fileSize start size parsedPos = start + size) ∧
    ((∀ p, sizeAt p < fileSize) → ∀ n pos,
      readRecordsLoop fileSize sizeAt c1 pos n = readRecordsLoop fileSize sizeAt c2 pos n ∧
      readRecordsLoop fileSize sizeAt c1 pos (n + 1) =
        readRecordsLoop fileSize sizeAt c1 (pos + sizeAt pos) n) := by
  constructor
  · intro start size parsedPos h
    unfold readRecordsReposition
    rw [if_pos h]
  · intro hs n
    induction n with
    | zero =>
      intro pos
      refine ⟨rfl, ?_⟩
      show readRecordsLoop fileSize sizeAt c1
          (readRecordsReposition fileSize pos (sizeAt pos) (pos + c1 pos)) 0 = _
      unfold readRecordsReposition
      rw [if_pos (hs pos)]
    | succ m ih =>
      intro pos
      constructor
      · show readRecordsLoop fileSize sizeAt c1
            (readRecordsReposition fileSize pos (sizeAt pos) (pos + c1 pos)) m = _
        unfold readRecordsReposition
        rw [if_pos (hs pos)]
        have h2 : readRecordsLoop fileSize sizeAt c2 pos (m + 1) =
            readRecordsLoop fileSize sizeAt c2 (pos + sizeAt pos) m := by
          show readRecordsLoop fileSize sizeAt c2
              (readRecordsReposition fileSize pos (sizeAt pos) (pos + c2 pos)) m = _
          unfold readRecordsReposition
          rw [if_pos (hs pos)]
        rw [h2]
        exact (ih (pos + sizeAt pos)).1
      · show readRecordsLoop fileSize sizeAt c1
            (readRecordsReposition fileSize pos (sizeAt pos) (pos + c1 pos)) (m + 1) = _
        unfold readRecordsReposition
        rw [if_pos (hs pos)]

/-- Witness for C2 at a concrete record and a concrete two-record loop. -/
theorem claim_C2_forward_progress_witness :
    readRecordsReposition 100 40 10 46 = 40 + 10 ∧
    readRecordsLoop 100 (fun _ => 10) (fun _ => 6) 0 2 =
      readRecordsLoop 100 (fun _ => 10) (fun _ => 3) 0 2 :=
  ⟨(claim_C2_forward_progress 100 (fun _ => 10) (fun _ => 6) (fun _ => 3)).1 40 10 46
      (by decide),
   ((claim_C2_forward_progress 100 (fun _ => 10) (fun _ => 6) (fun _ => 3)).2
      (fun _ => by decide) 2 0).1⟩

/-! ### C5: boundary scan -/

/-- Counterexample to C5 as stated: scanning a file with a geopol record at
offset 0 produces no warning for it (the warned list is exactly the offset 10
of the unknown-type record), while the claim says geopol records are skipped
*with* a warning. -/
theorem claim_C5_counterexample :
    handleBoundaries exBoundaryFile 30 30 0 = ([20], [10], 30) ∧
    (0 ∈ (handleBoundaries exBoundaryFile 30 30 0).2.1) = False := by
  decide

/-- Claim C5 (amended): boundary scanning starts at the minimum offset of the
per-subsection offset table (0x200 for the two example entries), reads
records forward until end of file — no record type stops the scan — collects
exactly the boundary-typed records, warns exactly on the types that are
neither boundary nor geopol, and skips geopol records silently (without a
warning). -/
theorem claim_C5_boundary_scan :
    (∀ du1 du2 : ℕ,
      minBoundaryOffset [(0x300, du1, 0x400, 1), (0x200, du2, 0x280, 1)] = 0x200) ∧
    (∀ (file : ℕ → RecType × ℕ) (fileSize fuel pos : ℕ),
      (∀ p, 0 < (file p).2) → fileSize ≤ pos + fuel →
      fileSize ≤ (handleBoundaries file fileSize fuel pos).2.2 ∧
      (∀ p ∈ (handleBoundaries file fileSize fuel pos).1,
        (file p).1 = RecType.boundary ∨ (file p).1 = RecType.boundaryMsfs2024) ∧
      (∀ p ∈ (handleBoundaries file fileSize fuel pos).2.1,
        (file p).1 ≠ RecType.boundary ∧ (file p).1 ≠ RecType.boundaryMsfs2024 ∧
          (file p).1 ≠ RecType.geopol)) := by
  constructor
  · intro du1 du2
    simp [minBoundaryOffset]
  · intro file fileSize fuel
    induction fuel with
    | zero =>
      intro pos hsz hfu
      exact ⟨by simpa [handleBoundaries] using hfu, by simp [handleBoundaries],
        by simp [handleBoundaries]⟩
    | succ f ih =>
      intro pos hsz hfu
      by_cases hlt : pos < fileSize
      · have hrec := ih (pos + (file pos).2) hsz (by have := hsz pos; omega)
        rw [handleBoundaries, if_pos hlt]
        rcases hstep : boundaryStep (file pos).1 with _ | _ | _ <;> dsimp only
        · refine ⟨hrec.1, ?_, hrec.2.2⟩
          intro p hp
          rcases List.mem_cons.mp hp with rfl | hp2
          · unfold boundaryStep at hstep
            by_cases hb : (file p).1 = RecType.boundary ∨ (file p).1 = RecType.boundaryMsfs2024
            · exact hb
            · rw [if_neg hb] at hstep
              split_ifs at hstep
          · exact hrec.2.1 p hp2
        · exact hrec
        · refine ⟨hrec.1, hrec.2.1, ?_⟩
          intro p hp
          rcases List.mem_cons.mp hp with rfl | hp2
          · unfold boundaryStep at hstep
            by_cases hb : (file p).1 = RecType.boundary ∨ (file p).1 = RecType.boundaryMsfs2024
            · rw [if_pos hb] at hstep
              exact absurd hstep (by simp)
            · rw [if_neg hb] at hstep
              by_cases hg : (file p).1 ≠ RecType.geopol
              · push_neg at hb
                exact ⟨hb.1, hb.2, hg⟩
              · rw [if_neg hg] at hstep
                exact absurd hstep (by simp)
          · exact hrec.2.2 p hp2
      · rw [handleBoundaries, if_neg hlt]
        exact ⟨by simpa using Nat.le_of_not_lt hlt, by simp, by simp⟩

/-- Witness for C5: the concrete scan of the example file reaches the end of
the file. -/
theorem claim_C5_boundary_scan_witness :
    (30 : ℕ) ≤ (handleBoundaries exBoundaryFile 30 30 0).2.2 :=
  (claim_C5_boundary_scan.2 exBoundaryFile 30 30 0
    (fun p => by unfold exBoundaryFile; split_ifs <;> decide) (by decide)).1

/-! ### C7: post-load pass order and the final metadata update -/

open PostLoadPass in
/-- Claim C7 (code bug): the post-load passes run in the claimed fixed order
with the claimed gating (shown here for an X-Plane run with all options on,
where the VOR/TACAN merge and the ILS runway-end backfill are skipped), but
the final metadata/AIRAC update is *not* reached on every run: it reads the
AIRAC cycle through the X-Plane compiler pointer, which is null for every
non-X-Plane simulator — the run dereferences null (modelled as `none`)
exactly when the simulator is not X-Plane. -/
theorem claim_C7_post_load_passes :
    postLoadPasses ⟨SimulatorType.FSX, true, true, true⟩ = none ∧
    (∀ opts : NavDatabaseOptions,
      (postLoadPasses opts = none ↔ opts.simulatorType ≠ SimulatorType.XPLANE11)) ∧
    postLoadPasses ⟨SimulatorType.XPLANE11, true, true, true⟩ =
      some [createPostLoadIndexes, deleteDuplicates, resolveAirways,
            updateWaypointNavIds, updateApproachNavIds, updateIlsCounts,
            populateNavSearch, populateRouteNode, createRouteEdgesRadio,
            populateRouteEdge, createSearchIndexes, updateMetadataAirac] := by
  refine ⟨by decide, ?_, by decide⟩
  intro opts
  unfold postLoadPasses
  by_cases h : opts.simulatorType = SimulatorType.XPLANE11 <;> simp [h]

/-! ### C3: ILS runway binding and write decision -/

/-- Counterexample to C3 as stated: an ILS with a localizer, empty runway
field and facility name "ILS CAT III RWY 05L" under MSFS with incomplete
mode off does bind runway "05L", but the record is *not* written —
`isComplete` stays false whenever a localizer exists, so localizer ILS
records are only written in incomplete mode. -/
theorem claim_C3_counterexample :
    ilsWriteObject SimulatorType.MSFS false
      { ident := "IMQX".toList, name := "ILS CAT III RWY 05L".toList,
        airportIdent := [], loc := some { runwayName := [] } } =
      { boundRunway := some "05L".toList, written := false } := by
  decide

/-- Claim C3 (amended): for an ILS with non-empty ident, the record is
written exactly when incomplete mode is enabled or there is no localizer
(runway validity does not influence the write decision); and when the
localizer's runway field is absent ("", "0" or "00") under MSFS/MSFS 2024,
the bound runway is the one extracted from the facility name when that
extraction is a valid runway name, and nothing is bound otherwise. -/
theorem claim_C3_ils_write (sim : SimulatorType) (incompleteMode : Bool) (ils : Ils)
    (hident : ils.ident ≠ []) :
    ((ilsWriteObject sim incompleteMode ils).written = true ↔
      (incompleteMode = true ∨ ils.loc.isNone = true)) ∧
    (∀ loc, ils.loc = some loc →
      (qTrim loc.runwayName = [] ∨ qTrim loc.runwayName = ['0'] ∨
        qTrim loc.runwayName = ['0', '0']) →
      (sim = SimulatorType.MSFS ∨ sim = SimulatorType.MSFS_2024) →
      (ilsWriteObject sim incompleteMode ils).boundRunway =
        (if runwayNameValid (extractRunwayFromIlsName (qTrim ils.name)) then
          some (extractRunwayFromIlsName (qTrim ils.name)) else none)) := by
  constructor
  · unfold ilsWriteObject
    rw [if_neg hident]
    match hl : ils.loc with
    | none => simp
    | some loc => simp
  · intro loc hloc habsent hsim
    unfold ilsWriteObject
    rw [if_neg hident, hloc]
    dsimp only
    have hcond : (sim = SimulatorType.MSFS ∨ sim = SimulatorType.MSFS_2024) ∧
        (qTrim loc.runwayName = [] ∨ qTrim loc.runwayName = ['0'] ∨
          qTrim loc.runwayName = ['0', '0']) := ⟨hsim, habsent⟩
    rw [if_pos hcond]
    by_cases hv : runwayNameValid (extractRunwayFromIlsName (qTrim ils.name)) = true
    · rw [if_pos hv]
      have hne : extractRunwayFromIlsName (qTrim ils.name) ≠ [] := by
        intro hnil
        rw [hnil] at hv
        exact absurd hv (by decide)
      rw [if_pos hne, if_pos hv]
    · rw [if_neg hv, if_neg hv]
      simp

/-- Witness for C3: with incomplete mode enabled the example ILS is written
and carries the extracted runway "05L". -/
theorem claim_C3_ils_write_witness :
    (ilsWriteObject SimulatorType.MSFS true
      { ident := "IMQX".toList, name := "ILS CAT III RWY 05L".toList,
        airportIdent := [], loc := some { runwayName := [] } }).written = true ∧
    (ilsWriteObject SimulatorType.MSFS true
      { ident := "IMQX".toList, name := "ILS CAT III RWY 05L".toList,
        airportIdent := [], loc := some { runwayName := [] } }).boundRunway =
      some "05L".toList := by
  constructor
  · exact ((claim_C3_ils_write SimulatorType.MSFS true _ (by decide)).1).mpr (Or.inl rfl)
  · have h := (claim_C3_ils_write SimulatorType.MSFS true
      { ident := "IMQX".toList, name := "ILS CAT III RWY 05L".toList,
        airportIdent := [], loc := some { runwayName := [] } } (by decide)).2
      { runwayName := [] } rfl (Or.inl (by decide)) (Or.inl rfl)
    rw [h]
    decide

end Atools
